import Mathlib

/-!
Verification of the feedback-driven RAG runtime (backend/main.py and
backend/rag_pipeline.py) against its natural-language specification.

The Python code is shallowly embedded:
* numbers that are Python floats (distances, scores, latencies) are modelled
  as exact rationals (`ℚ`); decimal literals such as `0.35` denote the exact
  rational `35/100`;
* Python dictionaries that are used purely as key-value lookups (the metadata
  dict on a document, the per-source stats/score dicts) are modelled either as
  structures with optional fields or as lookup functions `String → Option _`;
* the external effects (the Chroma retrieval result, the OpenAI transport, the
  wall clock, uuid/timestamp generation) are passed in as explicit parameters;
* the JSONL run-log file is modelled as the list of its parsed records;
* fallible endpoints return `Except`, with the error string of the
  corresponding `HTTPException` detail.
-/

/-- Whitespace-stripping as Python's `str.strip()`: drop whitespace from both
ends.  Defined on the character list so that it is easy to reason about. -/
def pyStrip (s : String) : String :=
  (((s.data.dropWhile Char.isWhitespace).reverse.dropWhile Char.isWhitespace).reverse).asString

/-- Python's `sep.join(parts)`. -/
def pyJoin (sep : String) : List String → String
  | [] => ""
  | x :: xs => xs.foldl (fun acc y => acc ++ sep ++ y) x

/-- Metadata dictionary attached to a document by the pipeline.  The only keys
ever read are `source`, `chunk`, `distance` and `id`; a missing key is `none`. -/
structure Metadata where
  source : Option String
  chunk : Option Nat
  distance : Option ℚ
  id : Option String
deriving DecidableEq, Repr

/-- `rag_pipeline.Document`: a chunk of text plus its metadata. -/
structure Document where
  page_content : String
  metadata : Metadata
deriving DecidableEq, Repr

/-- `d.metadata.get("source", "unknown")`. -/
def metaSource (d : Document) : String := d.metadata.source.getD "unknown"

/-- `d.metadata.get("chunk", 0)`. -/
def metaChunk (d : Document) : Nat := d.metadata.chunk.getD 0

/-! ### Indexer (`RAGPipeline._chunk`, `_build_index`, `rebuild_index`) -/

/-- Python's `text.split()`: split on whitespace, dropping empty pieces. -/
def pySplitWs (s : String) : List String :=
  (s.split Char.isWhitespace).filter (fun w => w ≠ "")

/-- The word-window loop of `RAGPipeline._chunk`: take `chunk_size` words,
advance by `max 1 (chunk_size - overlap)`, keep the final partial window. -/
def chunkWords : List String → Nat → Nat → List String
  | [], _, _ => []
  | w :: ws, chunkSize, overlap =>
    pyJoin " " ((w :: ws).take chunkSize) ::
      chunkWords ((w :: ws).drop (max 1 (chunkSize - overlap))) chunkSize overlap
termination_by words _ _ => words.length
decreasing_by
  simp only [List.length_drop, List.length_cons]
  have h1 : 1 ≤ max 1 (chunkSize - overlap) := le_max_left _ _
  omega

/-- `RAGPipeline._chunk` with its default parameters (700-word windows,
overlap 100). -/
def ragChunk (text : String) : List String :=
  chunkWords (pySplitWs text) 700 100

/-- One entry added to the Chroma collection by `_build_index`: the chunk
text, its string id `source::counter`, and its metadata. -/
structure IndexEntry where
  text : String
  id : String
  source : String
  chunk : Nat
deriving DecidableEq, Repr

/-- The file loop of `RAGPipeline._build_index`, carrying the global chunk
counter across files.  A source file is a pair (basename, contents). -/
def build_index_aux : List (String × String) → Nat → List IndexEntry
  | [], _ => []
  | f :: rest, ctr =>
    let cs := ragChunk f.2
    (cs.enum.map (fun p =>
      { text := p.2
        id := f.1 ++ "::" ++ Nat.repr (ctr + p.1)
        source := f.1
        chunk := ctr + p.1 })) ++ build_index_aux rest (ctr + cs.length)

/-- `RAGPipeline._build_index`: chunk every source file, numbering chunks with
a single global counter that starts at 0. -/
def build_index (files : List (String × String)) : List IndexEntry :=
  build_index_aux files 0

/-- `RAGPipeline.rebuild_index`: drop the existing collection (whatever it
held) and rebuild from the source files. -/
def rebuild_index (_prev : List IndexEntry) (files : List (String × String)) :
    List IndexEntry :=
  build_index files

/-! ### Generator (`RAGPipeline._build_context_and_sources`, `_generate_with_openai`,
`_baseline_answer`, `generate`) -/

/-- Pipeline configuration: the model names resolved in `__init__` and whether
an OpenAI client could be constructed (`self._openai_client is not None`). -/
structure PipelineCfg where
  ft_model : Option String
  base_model : String
  has_client : Bool
  use_finetuned_by_default : Bool
deriving DecidableEq, Repr

/-- Python truthiness of an optional string: present and non-empty. -/
def pyTruthy (s : Option String) : Bool := s.getD "" ≠ ""

/-- One line of the human-readable sources list: `[i] source (chunk n)`. -/
def sourcesLine (i : Nat) (d : Document) : String :=
  "[" ++ Nat.repr i ++ "] " ++ metaSource d ++ " (chunk " ++ Nat.repr (metaChunk d) ++ ")"

/-- `RAGPipeline._build_context_and_sources`: the numbered context block and
the sources block. -/
def build_context_and_sources (docs : List Document) : String × String :=
  let numbered := docs.enum.map (fun p =>
    "[" ++ Nat.repr (p.1 + 1) ++ "] (" ++ metaSource p.2 ++ "#" ++
      Nat.repr (metaChunk p.2) ++ ") " ++ p.2.page_content)
  (pyJoin "\n\n" numbered,
   pyJoin "\n" (docs.enum.map (fun p => sourcesLine (p.1 + 1) p.2)))

/-- The fixed system prompt shared by the generator and the dataset exporter. -/
def answerSystemPrompt : String :=
  "You are a careful instructor for a Retrieval-Augmented Generation (RAG) system. " ++
  "Explain concepts clearly and step by step using ONLY the provided context. " ++
  "If something is not supported by the context, explicitly say you don\x27t have enough information. " ++
  "First write a short 1-2 sentence summary, then a few concise bullet points. " ++
  "Always include inline citations like [1], [2] that refer to the provided context items."

/-- `RAGPipeline._generate_with_openai`.  The transport is modelled by
`resp : String → Option (List String)`: for a model name it either fails
(`none`: exception, which the code swallows) or yields the list of text parts
of the first output (an item with no text or empty text is the empty
string, which the code skips). -/
def generate_with_openai (cfg : PipelineCfg) (resp : String → Option (List String))
    (docs : List Document) (model_name : String) : Option String :=
  if !cfg.has_client then none
  else
    let sources_block := (build_context_and_sources docs).2
    match resp model_name with
    | none => none
    | some items =>
      let text_parts := items.filter (fun t => t ≠ "")
      if text_parts.isEmpty then none
      else
        let answer := pyJoin "\n" ((text_parts.map pyStrip).filter (fun t => t ≠ ""))
        let answer :=
          if sources_block ≠ "" then answer ++ "\n\nSources:\n" ++ sources_block
          else answer
        some (pyStrip answer)

/-- `RAGPipeline._baseline_answer`: the deterministic offline template. -/
def baseline_answer (query : String) (docs : List Document) : String :=
  let context := pyJoin "\n\n" (docs.enum.map (fun p =>
    "[" ++ Nat.repr (p.1 + 1) ++ "] " ++ p.2.page_content))
  let sources_block := pyJoin "\n" (docs.enum.map (fun p => sourcesLine (p.1 + 1) p.2))
  "Using only the provided context, here is a concise answer.\n\n" ++
  "Question: " ++ query ++ "\n\n" ++
  "Context (truncated):\n" ++ context.take 1200 ++ "\n\n" ++
  "Sources:\n" ++ sources_block

/-- The primary model chosen at the top of `RAGPipeline.generate`. -/
def primaryModel (cfg : PipelineCfg) (use_finetuned : Option Bool)
    (force_model : Option String) : String :=
  if pyTruthy force_model then force_model.getD ""
  else
    let use_ft := use_finetuned.getD cfg.use_finetuned_by_default
    if use_ft && pyTruthy cfg.ft_model then cfg.ft_model.getD ""
    else cfg.base_model

/-- The guard of step 1 of `generate`:
`if self._openai_client and primary_model:`. -/
def tryPrimaryCond (cfg : PipelineCfg) (pm : String) : Bool :=
  cfg.has_client && pm ≠ ""

/-- The guard of step 2 of `generate`: `if answer is None and
self._openai_client and self.base_model and primary_model != self.base_model:`
(the `answer is None` part is the surrounding match). -/
def tryBaseCond (cfg : PipelineCfg) (pm : String) : Bool :=
  cfg.has_client && cfg.base_model ≠ "" && pm ≠ cfg.base_model

/-- Steps 1–2 of `RAGPipeline.generate`: the `answer` local after the primary
attempt and the base-model fallback (`none` exactly when both LLM tiers
failed or were skipped). -/
def generate_answer_opt (cfg : PipelineCfg) (resp : String → Option (List String))
    (docs : List Document) (pm : String) : Option String :=
  match (if tryPrimaryCond cfg pm then generate_with_openai cfg resp docs pm
         else none) with
  | some a => some a
  | none =>
    if tryBaseCond cfg pm then generate_with_openai cfg resp docs cfg.base_model
    else none

/-- `RAGPipeline.generate`: primary tier, base-model fallback, offline
baseline. -/
def generate (cfg : PipelineCfg) (resp : String → Option (List String))
    (query : String) (docs : List Document) (use_finetuned : Option Bool)
    (force_model : Option String) : String :=
  match generate_answer_opt cfg resp docs (primaryModel cfg use_finetuned force_model) with
  | none => baseline_answer query docs
  | some a => a

/-- Ghost observer for `generate`: which model actually produced the returned
answer (`none` when the offline baseline produced it).  It follows exactly the
branch structure of `generate`. -/
def actual_model_used (cfg : PipelineCfg) (resp : String → Option (List String))
    (docs : List Document) (use_finetuned : Option Bool)
    (force_model : Option String) : Option String :=
  match (if tryPrimaryCond cfg (primaryModel cfg use_finetuned force_model) then
      generate_with_openai cfg resp docs (primaryModel cfg use_finetuned force_model)
    else none) with
  | some _ => some (primaryModel cfg use_finetuned force_model)
  | none =>
    if tryBaseCond cfg (primaryModel cfg use_finetuned force_model) then
      match generate_with_openai cfg resp docs cfg.base_model with
      | some _ => some cfg.base_model
      | none => none
    else none

/-! ### main.py data model -/

/-- `main.QueryRequest`. -/
structure QueryRequest where
  query : String
  top_k : Nat
  use_finetuned : Bool
deriving DecidableEq, Repr

/-- `main.ChunkOut`. -/
structure ChunkOut where
  source : String
  chunk : Nat
  text : String
  distance : Option ℚ
  relevance : String
deriving DecidableEq, Repr

/-- `main.QueryResponse`. -/
structure QueryResponse where
  answer : String
  latency_ms : ℚ
  trust_score : Nat
  chunks : List ChunkOut
  model : Option String
deriving DecidableEq, Repr

/-- `main.RetrievedChunkRecord`. -/
structure RetrievedChunkRecord where
  source : String
  chunk : Nat
  doc_id : Option String
  distance : Option ℚ
  relevance : Option String
  text : String
deriving DecidableEq, Repr

/-- `main.RunRecord`: one line of `data/run_logs.jsonl`. -/
structure RunRecord where
  run_id : String
  timestamp : String
  query : String
  answer : String
  latency_ms : ℚ
  trust_score : Nat
  top_k : Nat
  model : Option String
  label : Option String
  eval_notes : Option String
  retrieved : List RetrievedChunkRecord
deriving DecidableEq, Repr

/-- `main.VALID_LABELS`. -/
def VALID_LABELS : List String := ["good", "mixed", "off_topic", "no_evidence"]

/-! ### main.py utility functions -/

/-- `main.compute_trust_score`.  `len({...})`, the number of distinct source
names, is the length of the deduplicated list. -/
def compute_trust_score (docs : List Document) : Nat :=
  if docs.isEmpty then 0
  else
    let sources := (docs.map metaSource).dedup
    let base := 60 + min (docs.length * 5) 20 + min (sources.length * 5) 20
    max 0 (min 99 base)

/-- `main.relevance_label`. -/
def relevance_label (distance : Option ℚ) : String :=
  match distance with
  | none => "Unknown"
  | some d =>
    if d < 0.35 then "Related"
    else if d < 0.65 then "Somewhat related"
    else "Off-topic"

/-- `main.model_name_for_run`.  The pipeline always has a `base_model`
attribute and no `llm_model` attribute, so the inner `or` falls back to
`"gpt-4o"` exactly when `base_model` is the empty (falsy) string. -/
def model_name_for_run (cfg : PipelineCfg) (use_finetuned : Bool) : String :=
  let base := if cfg.base_model ≠ "" then cfg.base_model else "gpt-4o"
  if use_finetuned && pyTruthy cfg.ft_model then cfg.ft_model.getD ""
  else base

/-- The `ChunkOut` built for one retrieved document in `query_rag`. -/
def chunkOutOfDoc (d : Document) : ChunkOut :=
  { source := metaSource d
    chunk := metaChunk d
    text := d.page_content
    distance := d.metadata.distance
    relevance := relevance_label d.metadata.distance }

/-- One element of the `retrieved` list built by `main.log_run_to_file`. -/
def retrievedOfDoc (d : Document) (ch : ChunkOut) : RetrievedChunkRecord :=
  { source := metaSource d
    chunk := metaChunk d
    doc_id := d.metadata.id
    distance := d.metadata.distance
    relevance := some ch.relevance
    text := d.page_content }

/-- `main.log_run_to_file`: append one record to the log.  `run_id` and
`timestamp` (generated from uuid4 and the clock) are parameters.  The
`min(len(docs), len(chunks))` safeguard is the truncation built into `zip`. -/
def log_run_to_file (run_id timestamp query answer : String) (latency_ms : ℚ)
    (trust_score : Nat) (docs : List Document) (chunks : List ChunkOut)
    (top_k : Nat) (model_name : String) (log : List RunRecord) : List RunRecord :=
  let retrieved := (docs.zip chunks).map (fun p => retrievedOfDoc p.1 p.2)
  log ++ [{ run_id := run_id
            timestamp := timestamp
            query := query
            answer := answer
            latency_ms := latency_ms
            trust_score := trust_score
            top_k := top_k
            model := some model_name
            label := none
            eval_notes := none
            retrieved := retrieved }]

/-! ### `POST /api/query` (`main.query_rag`) -/

/-- The fixed response for an empty or whitespace-only query. -/
def emptyQueryResponse : QueryResponse :=
  { answer := "Please provide a non-empty question."
    latency_ms := 0
    trust_score := 0
    chunks := []
    model := none }

/-- `main.query_rag`.  External effects are parameters: `docs` is the value of
`pipeline.retrieve(q, k)`, `resp` the OpenAI transport, `elapsed_ms` the
measured latency, `run_id`/`timestamp` the generated identifiers, and `log`
the current contents of the run log.  Returns the response and the new log. -/
def query_rag (cfg : PipelineCfg) (resp : String → Option (List String))
    (payload : QueryRequest) (docs : List Document) (elapsed_ms : ℚ)
    (run_id timestamp : String) (log : List RunRecord) :
    QueryResponse × List RunRecord :=
  let q := pyStrip payload.query
  if q = "" then (emptyQueryResponse, log)
  else
    let answer := generate cfg resp q docs (some payload.use_finetuned) none
    let trust_score := compute_trust_score docs
    let model_used := model_name_for_run cfg payload.use_finetuned
    let chunks := docs.map chunkOutOfDoc
    let newLog := log_run_to_file run_id timestamp q answer elapsed_ms trust_score
      docs chunks payload.top_k model_used log
    ({ answer := answer
       latency_ms := elapsed_ms
       trust_score := trust_score
       chunks := chunks
       model := some model_used }, newLog)

/-! ### Quality scorer (`main.compute_source_quality_scores`) -/

/-- Per-source counters kept in the `stats` dict. -/
structure SrcCounts where
  good : Nat
  mixed : Nat
  off_topic : Nat
deriving DecidableEq, Repr

/-- The zero counters a source starts with. -/
def SrcCounts.zero : SrcCounts := ⟨0, 0, 0⟩

/-- The label-dispatch inside the chunk loop: bump the counter selected by the
run's label (a valid label other than the three listed ones bumps nothing). -/
def bumpCounts (label : String) (c : SrcCounts) : SrcCounts :=
  if label = "good" then { c with good := c.good + 1 }
  else if label = "mixed" then { c with mixed := c.mixed + 1 }
  else if label = "off_topic" then { c with off_topic := c.off_topic + 1 }
  else c

/-- One iteration of the chunk loop: ensure the source has an entry and bump
it.  The `stats` dict is modelled extensionally as a lookup function. -/
def statsStep (label : String) (st : String → Option SrcCounts) (src : String) :
    String → Option SrcCounts :=
  fun s => if s = src then some (bumpCounts label ((st src).getD SrcCounts.zero)) else st s

/-- One iteration of the run loop of `compute_source_quality_scores`. -/
def statsOfRun (st : String → Option SrcCounts) (run : RunRecord) :
    String → Option SrcCounts :=
  match run.label with
  | none => st
  | some lbl =>
    if lbl ∈ VALID_LABELS then
      run.retrieved.foldl (fun st ch => statsStep lbl st ch.source) st
    else st

/-- `main.compute_source_quality_scores`: the final per-source score map,
modelled as a lookup function (a source absent from the dict maps to `none`). -/
def compute_source_quality_scores (runs : List RunRecord) : String → Option ℚ :=
  if runs.isEmpty then fun _ => none
  else
    let stats := runs.foldl statsOfRun (fun _ => none)
    fun src => (stats src).map (fun c =>
      (c.good : ℚ) * 1.0 + (c.mixed : ℚ) * 0.3 - (c.off_topic : ℚ) * 1.0)

/-! ### Re-ranker (`main.query_rag_rerank`, scoring and sorting part) -/

/-- The combined score of one document:
`source_scores.get(src, 0.0) - float(dist)` with the distance defaulting to
`0.0` when absent (`or 0.0` maps both a missing and a zero distance to zero,
which is the same rational). -/
def combinedScore (source_scores : String → Option ℚ) (d : Document) : ℚ :=
  (source_scores (metaSource d)).getD 0 - (d.metadata.distance).getD 0

/-- The `scored_docs` list built by `query_rag_rerank`. -/
def scoredDocs (source_scores : String → Option ℚ) (docs : List Document) :
    List (ℚ × Document) :=
  docs.map (fun d => (combinedScore source_scores d, d))

/-- Insertion step of a stable descending sort on the first component: the new
element (later in the original order) passes every strictly greater key and
stops before the first key less than or equal to its own. -/
def insertDesc (x : ℚ × Document) : List (ℚ × Document) → List (ℚ × Document)
  | [] => [x]
  | y :: ys => if x.1 < y.1 then y :: insertDesc x ys else x :: y :: ys

/-- Stable descending sort on the first component.  Python's
`list.sort(key=lambda x: x[0], reverse=True)` is a stable sort ordered by
descending key; a stable sort's output is uniquely determined, so this
insertion sort computes exactly the same list. -/
def sortDesc : List (ℚ × Document) → List (ℚ × Document)
  | [] => []
  | x :: xs => insertDesc x (sortDesc xs)

/-- The re-ranking performed by `main.query_rag_rerank`: score every document,
sort descending by combined score (stable), and drop the scores. -/
def rerankDocs (source_scores : String → Option ℚ) (docs : List Document) :
    List Document :=
  (sortDesc (scoredDocs source_scores docs)).map Prod.snd

/-! ### `PATCH /api/runs/{run_id}` (`main.update_run_label`) -/

/-- `main.update_run_label`.  The log is the list of parsed records of
`run_logs.jsonl`; the error strings are the `HTTPException` details. -/
def update_run_label (log : List RunRecord) (run_id : String) (label : String)
    (notes : Option String) : Except String (List RunRecord) :=
  if label ∉ VALID_LABELS then Except.error "Invalid label value"
  else
    let new_log := log.map (fun r =>
      if r.run_id = run_id then { r with label := some label, eval_notes := notes }
      else r)
    if log.any (fun r => r.run_id = run_id) then Except.ok new_log
    else Except.error "Run ID not found"

/-! ### `GET /api/export-dataset` (`main.export_dataset`) -/

/-- One chat message of a training example. -/
structure Message where
  role : String
  content : String
deriving DecidableEq, Repr

/-- The non-training metadata attached to a training example. -/
structure DatasetMeta where
  run_id : String
  label : String
  trust_score : Nat
  top_k : Nat
  model : Option String
deriving DecidableEq, Repr

/-- One line of the exported fine-tune dataset. -/
structure DatasetRecord where
  messages : List Message
  metadata : DatasetMeta
deriving DecidableEq, Repr

/-- One numbered context line of the exporter: `[i] (source#chunk) text`. -/
def contextLineOfChunk (i : Nat) (ch : RetrievedChunkRecord) : String :=
  "[" ++ Nat.repr i ++ "] (" ++ ch.source ++ "#" ++ Nat.repr ch.chunk ++ ") " ++ ch.text

/-- The training example built from one labeled run. -/
def datasetRecordOfRun (run : RunRecord) (label : String) : DatasetRecord :=
  let context_block :=
    pyJoin "\n\n" (run.retrieved.enum.map (fun p => contextLineOfChunk (p.1 + 1) p.2))
  { messages :=
      [ { role := "system", content := answerSystemPrompt },
        { role := "user",
          content :=
            "Question: " ++ run.query ++ "\n\nContext items:\n\n" ++ context_block },
        { role := "assistant", content := run.answer } ]
    metadata :=
      { run_id := run.run_id
        label := label
        trust_score := run.trust_score
        top_k := run.top_k
        model := run.model } }

/-- Whether a run carries a non-null valid label (the `label not in
VALID_LABELS: continue` test; `None` is never in the set). -/
def isLabeledRun (r : RunRecord) : Bool :=
  match r.label with
  | some lbl => decide (lbl ∈ VALID_LABELS)
  | none => false

/-- `main.export_dataset`: 404 on an empty log, 400 when no run is labeled,
otherwise one training example per labeled run, in log order. -/
def export_dataset (runs : List RunRecord) : Except String (List DatasetRecord) :=
  if runs.isEmpty then Except.error "No runs found"
  else
    let lines := runs.filterMap (fun run =>
      match run.label with
      | some lbl =>
        if lbl ∈ VALID_LABELS then some (datasetRecordOfRun run lbl) else none
      | none => none)
    if lines.isEmpty then Except.error "No labeled runs to export"
    else Except.ok lines

/-! ### Specification-side auxiliary definitions -/

/-- Decimal digit characters of `n`, defined by the obvious structural
recursion; proved below to coincide with the characters of `Nat.repr n`. -/
def natChars (n : Nat) : List Char :=
  if n < 10 then [Nat.digitChar n]
  else natChars (n / 10) ++ [Nat.digitChar (n % 10)]
decreasing_by exact Nat.div_lt_self (by omega) (by norm_num)

/-- Numeric value of a digit character. -/
def digitVal (c : Char) : Nat := c.toNat - 48

/-- Value of a decimal digit string. -/
def digitsVal (l : List Char) : Nat := l.foldl (fun a c => 10 * a + digitVal c) 0

/-- The flattened (label, source) occurrence list of the quality scorer: one
pair per retrieved chunk of each run carrying a non-null valid label. -/
def labeledSrcPairs (runs : List RunRecord) : List (String × String) :=
  runs.flatMap (fun r =>
    if isLabeledRun r then r.retrieved.map (fun ch => (r.label.getD "", ch.source))
    else [])

/-- The counters accumulated for `src` by a list of (label, source) pairs. -/
def countsIn (ps : List (String × String)) (src : String) : SrcCounts :=
  { good := ps.countP (fun p => p.1 = "good" && p.2 = src)
    mixed := ps.countP (fun p => p.1 = "mixed" && p.2 = src)
    off_topic := ps.countP (fun p => p.1 = "off_topic" && p.2 = src) }

/-- Componentwise sum of counters. -/
def addCounts (a b : SrcCounts) : SrcCounts :=
  ⟨a.good + b.good, a.mixed + b.mixed, a.off_topic + b.off_topic⟩

/-- Folding the per-chunk update over a flat list of (label, source) pairs. -/
def pairsFold (ps : List (String × String)) (st : String → Option SrcCounts) :
    String → Option SrcCounts :=
  ps.foldl (fun st p => statsStep p.1 st p.2) st

/-! ### Concrete sample inputs used by witnesses and counterexamples -/

/-- A sample retrieved document. -/
def sampleDoc1 : Document :=
  ⟨"alpha text", ⟨some "s1.txt", some 0, some 0.2, some "s1.txt::0"⟩⟩

/-- Configuration with both a fine-tuned and a base model and a live client. -/
def cfgC1 : PipelineCfg := ⟨some "ft-model", "base-model", true, true⟩

/-- Transport where the fine-tuned model fails and the base model succeeds. -/
def respC1 : String → Option (List String) :=
  fun m => if m = "base-model" then some ["BASE ANSWER"] else none

/-- A plain query payload with the fine-tuned toggle on. -/
def payloadC1 : QueryRequest := ⟨"q", 3, true⟩

/-- Configuration with no fine-tuned model and a live client. -/
def cfgWs : PipelineCfg := ⟨none, "base-m", true, true⟩

/-- Transport whose response consists of a single whitespace-only text part
(which is truthy for the `if text:` check but strips to nothing). -/
def respWs : String → Option (List String) := fun _ => some [" "]

/-- An unlabeled run record with one retrieved chunk. -/
def runA : RunRecord :=
  ⟨"run-a", "2024-01-01T00:00:00Z", "qa", "answer a", 12, 70, 3, some "m1",
   none, none, [⟨"s1.txt", 0, some "s1.txt::0", some 0.2, some "Related", "alpha text"⟩]⟩

/-- A second unlabeled run record. -/
def runB : RunRecord :=
  ⟨"run-b", "2024-01-02T00:00:00Z", "qb", "answer b", 15, 75, 3, some "m1",
   none, none, []⟩

/-- A run record labeled `good`. -/
def runGood : RunRecord :=
  ⟨"run-g", "2024-01-03T00:00:00Z", "qg", "ANSWER G", 10, 80, 3, some "m1",
   some "good", none, [⟨"s2.txt", 1, none, some 0.4, some "Somewhat related", "beta"⟩]⟩

/-! ## Theorems -/

/-- C7 counterexample: the claim names the lowercase label `"related"` for a
distance below 0.35, but the code returns the capitalized `"Related"`; at the
concrete distance 0.2 the claimed equality is false. -/
theorem relevance_label_case_counterexample :
    relevance_label (some (0.2 : ℚ)) = "Related" ∧
    relevance_label (some (0.2 : ℚ)) ≠ "related" := by
  constructor
  · have h : (0.2 : ℚ) < 0.35 := by norm_num
    simp [relevance_label, h]
  · have h : (0.2 : ℚ) < 0.35 := by norm_num
    simp [relevance_label, h]

/-- C7 (amended): the relevance label is derived from the distance by the
claimed thresholds, with the capitalized strings `"Related"`,
`"Somewhat related"`, `"Off-topic"` and `"Unknown"` that the code returns. -/
theorem relevance_label_thresholds (d : Option ℚ) :
    (d = none → relevance_label d = "Unknown") ∧
    (∀ x : ℚ, d = some x →
      ((x < 0.35 → relevance_label d = "Related") ∧
       (0.35 ≤ x → x < 0.65 → relevance_label d = "Somewhat related") ∧
       (0.65 ≤ x → relevance_label d = "Off-topic"))) := by
  refine ⟨fun h => by simp [h, relevance_label], fun x hx => ?_⟩
  subst hx
  refine ⟨fun h => by simp [relevance_label, h], fun h1 h2 => ?_, fun h => ?_⟩
  · simp [relevance_label, h2, not_lt.mpr h1]
  · have h35 : ¬ x < 0.35 := not_lt.mpr (le_trans (by norm_num) h)
    have h65 : ¬ x < 0.65 := not_lt.mpr h
    simp [relevance_label, h35, h65]

/-- C7 witness: the amended theorem evaluated at distance 0.2. -/
theorem relevance_label_thresholds_witness :
    (0.2 : ℚ) < 0.35 ∧ relevance_label (some (0.2 : ℚ)) = "Related" :=
  ⟨by norm_num,
   ((relevance_label_thresholds (some (0.2 : ℚ))).2 0.2 rfl).1 (by norm_num)⟩

/-- C10: the trust score is 0 on an empty retrieval and otherwise lies in
[70, 99]; the maximal raw value 100 (4 chunks from 4 distinct sources) is
clamped to 99. -/
theorem compute_trust_score_range :
    compute_trust_score [] = 0 ∧
    (∀ docs : List Document, docs ≠ [] →
      70 ≤ compute_trust_score docs ∧ compute_trust_score docs ≤ 99) ∧
    compute_trust_score
      [⟨"a", ⟨some "s1", none, none, none⟩⟩, ⟨"b", ⟨some "s2", none, none, none⟩⟩,
       ⟨"c", ⟨some "s3", none, none, none⟩⟩, ⟨"d", ⟨some "s4", none, none, none⟩⟩] = 99 := by
  refine ⟨rfl, fun docs hne => ?_, by decide⟩
  match docs, hne with
  | d :: ds, _ =>
    have hsrc : 1 ≤ ((d :: ds).map metaSource).dedup.length := by
      have : ((d :: ds).map metaSource).dedup ≠ [] := by
        intro hnil
        rw [List.dedup_eq_nil] at hnil
        simp at hnil
      exact List.length_pos.mpr this
    have hlen : 1 ≤ (d :: ds).length := by simp
    simp only [compute_trust_score, List.isEmpty_cons, if_false, Bool.false_eq_true]
    constructor
    · have h1 : 5 ≤ min ((d :: ds).length * 5) 20 := le_min (by omega) (by norm_num)
      have h2 : 5 ≤ min (((d :: ds).map metaSource).dedup.length * 5) 20 :=
        le_min (by omega) (by norm_num)
      omega
    · omega

/-- C10 witness: the bounds theorem evaluated at one concrete document. -/
theorem compute_trust_score_range_witness :
    [sampleDoc1] ≠ ([] : List Document) ∧
    70 ≤ compute_trust_score [sampleDoc1] ∧ compute_trust_score [sampleDoc1] ≤ 99 :=
  ⟨by decide, compute_trust_score_range.2.1 [sampleDoc1] (by decide)⟩

/-- C9: a query that strips to the empty string short-circuits to the fixed
"please provide a question" response (trust score 0, no chunks, no model) and
appends nothing to the run log. -/
theorem query_rag_empty_query (cfg : PipelineCfg) (resp : String → Option (List String))
    (payload : QueryRequest) (docs : List Document) (elapsed_ms : ℚ)
    (run_id timestamp : String) (log : List RunRecord)
    (h : pyStrip payload.query = "") :
    query_rag cfg resp payload docs elapsed_ms run_id timestamp log =
      ({ answer := "Please provide a non-empty question."
         latency_ms := 0
         trust_score := 0
         chunks := []
         model := none }, log) := by
  simp [query_rag, h, emptyQueryResponse]

/-- C9 witness: the short-circuit theorem evaluated on a whitespace-only
query. -/
theorem query_rag_empty_query_witness :
    pyStrip "   " = "" ∧
    query_rag cfgC1 respC1 ⟨"   ", 3, true⟩ [] 7 "run-x" "ts-x" [runA] =
      ({ answer := "Please provide a non-empty question."
         latency_ms := 0
         trust_score := 0
         chunks := []
         model := none }, [runA]) :=
  ⟨by decide, query_rag_empty_query cfgC1 respC1 ⟨"   ", 3, true⟩ [] 7 "run-x" "ts-x" [runA] (by decide)⟩

/-- C2: with a valid label, `update_run_label` on an unknown `run_id` yields
the explicit not-found error, and on a known `run_id` it succeeds with a log
of the same length in which every non-matching record is unchanged (hence in
the same relative position) and every matching record differs only in
`label`/`eval_notes`. -/
theorem update_run_label_frame (log : List RunRecord) (rid lbl : String)
    (notes : Option String) (hlbl : lbl ∈ VALID_LABELS) :
    ((∀ r ∈ log, r.run_id ≠ rid) →
      update_run_label log rid lbl notes = Except.error "Run ID not found") ∧
    ((∃ r ∈ log, r.run_id = rid) →
      ∃ newLog, update_run_label log rid lbl notes = Except.ok newLog ∧
        newLog.length = log.length ∧
        ∀ i : Nat, ∀ hi : i < log.length, ∀ hi2 : i < newLog.length,
          (log[i].run_id ≠ rid → newLog[i] = log[i]) ∧
          (log[i].run_id = rid →
            newLog[i] = { log[i] with label := some lbl, eval_notes := notes })) := by
  constructor
  · intro hall
    have hany : log.any (fun r => decide (r.run_id = rid)) = false := by
      rw [List.any_eq_false]
      intro r hr
      simpa using hall r hr
    simp [update_run_label, hlbl, hany]
  · rintro ⟨r, hr, hrid⟩
    have hany : log.any (fun r => decide (r.run_id = rid)) = true := by
      rw [List.any_eq_true]
      exact ⟨r, hr, by simp [hrid]⟩
    refine ⟨log.map (fun r =>
        if r.run_id = rid then { r with label := some lbl, eval_notes := notes } else r),
      ?_, by simp, ?_⟩
    · simp [update_run_label, hlbl, hany]
    intro i hi hi2
    constructor
    · intro hne
      rw [List.getElem_map]
      simp [hne]
    · intro heq
      rw [List.getElem_map]
      simp [heq]

/-- C2 witness: the frame theorem evaluated on a two-record log, patching the
second record. -/
theorem update_run_label_frame_witness :
    ∃ newLog, update_run_label [runA, runB] "run-b" "good" (some "note") = Except.ok newLog ∧
      newLog.length = 2 := by
  obtain ⟨nl, h1, h2, -⟩ :=
    (update_run_label_frame [runA, runB] "run-b" "good" (some "note") (by decide)).2
      ⟨runB, by decide, by decide⟩
  exact ⟨nl, h1, by simpa using h2⟩

/-- The `lines` list of `export_dataset` is one training example per labeled
run, in log order. -/
theorem export_lines_eq (runs : List RunRecord) :
    (runs.filterMap (fun run =>
      match run.label with
      | some lbl =>
        if lbl ∈ VALID_LABELS then some (datasetRecordOfRun run lbl) else none
      | none => none)) =
    (runs.filter isLabeledRun).map (fun r => datasetRecordOfRun r (r.label.getD "")) := by
  induction runs with
  | nil => rfl
  | cons r rs ih =>
    rw [List.filterMap_cons, List.filter_cons]
    cases hl : r.label with
    | none => simpa [isLabeledRun, hl] using ih
    | some lbl =>
      by_cases hv : lbl ∈ VALID_LABELS
      · simp [isLabeledRun, hl, hv, ih]
      · simp [isLabeledRun, hl, hv, ih]

/-- C8: exporting an empty log fails with the not-found error; a non-empty log
with no validly labeled run fails with the no-labeled-runs error; otherwise
the export is exactly one training example per labeled run, in log order, and
every training example consists of the three messages (system prompt, user
message with the question and the numbered context, assistant message equal
to the stored answer verbatim). -/
theorem export_dataset_spec (runs : List RunRecord) :
    (runs = [] → export_dataset runs = Except.error "No runs found") ∧
    (runs ≠ [] → runs.filter isLabeledRun = [] →
      export_dataset runs = Except.error "No labeled runs to export") ∧
    (runs ≠ [] → runs.filter isLabeledRun ≠ [] →
      export_dataset runs = Except.ok
        ((runs.filter isLabeledRun).map (fun r => datasetRecordOfRun r (r.label.getD "")))) ∧
    (∀ r : RunRecord, ∀ lbl : String,
      (datasetRecordOfRun r lbl).messages =
        [⟨"system", answerSystemPrompt⟩,
         ⟨"user", "Question: " ++ r.query ++ "\n\nContext items:\n\n" ++
            pyJoin "\n\n" (r.retrieved.enum.map (fun p => contextLineOfChunk (p.1 + 1) p.2))⟩,
         ⟨"assistant", r.answer⟩]) := by
  refine ⟨fun h => by simp [h, export_dataset], fun h1 h2 => ?_, fun h1 h2 => ?_,
    fun r lbl => rfl⟩
  · have hne : runs.isEmpty = false := by
      cases runs with
      | nil => exact absurd rfl h1
      | cons a l => rfl
    simp [export_dataset, hne, export_lines_eq, h2]
  · have hne : runs.isEmpty = false := by
      cases runs with
      | nil => exact absurd rfl h1
      | cons a l => rfl
    have hmap : ((runs.filter isLabeledRun).map
        (fun r => datasetRecordOfRun r (r.label.getD ""))).isEmpty = false := by
      cases hfil : runs.filter isLabeledRun with
      | nil => exact absurd hfil h2
      | cons a l => rfl
    simp only [export_dataset, hne, Bool.false_eq_true, if_false, export_lines_eq, hmap]

/-- C8 witness: the export theorem evaluated on a log with one `good`-labeled
run and one unlabeled run. -/
theorem export_dataset_spec_witness :
    [runGood, runA] ≠ ([] : List RunRecord) ∧
    [runGood, runA].filter isLabeledRun ≠ [] ∧
    export_dataset [runGood, runA] = Except.ok [datasetRecordOfRun runGood "good"] := by
  refine ⟨by decide, by decide, ?_⟩
  have h := (export_dataset_spec [runGood, runA]).2.2.1 (by decide) (by decide)
  rw [h]
  rfl

/-- Adding the zero counters on the right is the identity. -/
theorem addCounts_zero (c : SrcCounts) : addCounts c SrcCounts.zero = c := by
  cases c
  simp [addCounts, SrcCounts.zero]

/-- Adding the zero counters on the left is the identity. -/
theorem zero_addCounts (k : SrcCounts) : addCounts SrcCounts.zero k = k := by
  cases k
  simp [addCounts, SrcCounts.zero]

/-- Bumping before accumulating equals accumulating into a bumped remainder. -/
theorem addCounts_bumpCounts (lbl : String) (c k : SrcCounts) :
    addCounts (bumpCounts lbl c) k = addCounts c (bumpCounts lbl k) := by
  cases c
  cases k
  unfold addCounts bumpCounts
  split_ifs <;> simp [SrcCounts.mk.injEq] <;> omega

/-- Unfolding `countsIn` over a cons cell. -/
theorem countsIn_cons (l s : String) (ps : List (String × String)) (src : String) :
    countsIn ((l, s) :: ps) src =
      if s = src then bumpCounts l (countsIn ps src) else countsIn ps src := by
  by_cases hs : s = src
  · subst hs
    rw [if_pos rfl]
    simp only [countsIn, List.countP_cons, bumpCounts]
    split_ifs <;> simp_all [SrcCounts.mk.injEq]
  · rw [if_neg hs]
    simp [countsIn, List.countP_cons, hs]

/-- Pointwise description of folding the per-chunk update over a flat pair
list: a source is present afterwards iff it occurs in the pairs or was already
present, and its counters are the initial ones plus the occurrence counts. -/
theorem pairsFold_apply (ps : List (String × String)) (st : String → Option SrcCounts)
    (src : String) :
    pairsFold ps st src =
      if src ∈ ps.map Prod.snd ∨ (st src).isSome then
        some (addCounts ((st src).getD SrcCounts.zero) (countsIn ps src))
      else none := by
  induction ps generalizing st with
  | nil =>
    simp only [pairsFold, List.foldl_nil, List.map_nil, List.not_mem_nil, false_or]
    cases h : st src with
    | none => simp [h]
    | some c =>
      simp only [h, Option.isSome_some, if_true, Option.getD_some]
      exact congrArg some (addCounts_zero c).symm
  | cons p ps ih =>
    rw [show pairsFold (p :: ps) st = pairsFold ps (statsStep p.1 st p.2) from rfl, ih]
    by_cases hs : src = p.2
    · have hstep : statsStep p.1 st p.2 src =
          some (bumpCounts p.1 ((st src).getD SrcCounts.zero)) := by
        simp [statsStep, hs]
      have hmem : src ∈ (p :: ps).map Prod.snd := by
        simp [hs]
      have hcons : countsIn (p :: ps) src = bumpCounts p.1 (countsIn ps src) := by
        rw [show p = (p.1, p.2) from rfl, countsIn_cons]
        simp [hs.symm]
      rw [hstep, hcons]
      simp only [Option.isSome_some, or_true, if_true, Option.getD_some]
      rw [if_pos (Or.inl hmem), addCounts_bumpCounts]
    · have hstep : statsStep p.1 st p.2 src = st src := by
        simp [statsStep, hs]
      have hcons : countsIn (p :: ps) src = countsIn ps src := by
        rw [show p = (p.1, p.2) from rfl, countsIn_cons,
          if_neg (fun h => hs h.symm)]
      have hiff : (src ∈ (p :: ps).map Prod.snd ∨ (st src).isSome = true) ↔
          (src ∈ ps.map Prod.snd ∨ (st src).isSome = true) := by
        simp [List.map_cons, List.mem_cons, hs]
      have hT : some (addCounts ((st src).getD SrcCounts.zero) (countsIn (p :: ps) src)) =
          some (addCounts ((st src).getD SrcCounts.zero) (countsIn ps src)) := by
        rw [hcons]
      rw [hstep]
      exact (if_congr hiff hT rfl).symm

/-- One run-loop step of the scorer equals folding the run's (label, source)
pairs. -/
theorem statsOfRun_eq (st : String → Option SrcCounts) (r : RunRecord) :
    statsOfRun st r =
      pairsFold
        (if isLabeledRun r then r.retrieved.map (fun ch => (r.label.getD "", ch.source))
         else []) st := by
  cases hl : r.label with
  | none => simp [statsOfRun, isLabeledRun, hl, pairsFold]
  | some lbl =>
    by_cases hv : lbl ∈ VALID_LABELS
    · simp only [statsOfRun, isLabeledRun, hl, hv, decide_eq_true_eq,
        Option.getD_some, if_true]
      unfold pairsFold
      rw [List.foldl_map]
    · simp [statsOfRun, isLabeledRun, hl, hv, pairsFold]

/-- The whole run loop of the scorer equals folding the flattened labeled
(label, source) pair list. -/
theorem stats_fold_eq (runs : List RunRecord) (st : String → Option SrcCounts) :
    runs.foldl statsOfRun st = pairsFold (labeledSrcPairs runs) st := by
  induction runs generalizing st with
  | nil => rfl
  | cons r rs ih =>
    have hsplit : labeledSrcPairs (r :: rs) =
        (if isLabeledRun r then r.retrieved.map (fun ch => (r.label.getD "", ch.source))
         else []) ++ labeledSrcPairs rs := by
      simp [labeledSrcPairs, List.flatMap_cons]
    rw [List.foldl_cons, ih, statsOfRun_eq, hsplit]
    unfold pairsFold
    rw [List.foldl_append]

/-- C5: the quality scorer maps a source to
`good*1.0 + mixed*0.3 − off_topic*1.0` counted over the retrieved chunks of
runs carrying a non-null valid label, and a source that occurs in no
retrieved-and-labeled record is absent (`none`). -/
theorem compute_source_quality_scores_spec (runs : List RunRecord) (src : String) :
    compute_source_quality_scores runs src =
      if src ∈ (labeledSrcPairs runs).map Prod.snd then
        some (((labeledSrcPairs runs).countP (fun p => p.1 = "good" && p.2 = src) : ℚ) * 1.0 +
              ((labeledSrcPairs runs).countP (fun p => p.1 = "mixed" && p.2 = src) : ℚ) * 0.3 -
              ((labeledSrcPairs runs).countP (fun p => p.1 = "off_topic" && p.2 = src) : ℚ) * 1.0)
      else none := by
  cases runs with
  | nil => simp [compute_source_quality_scores, labeledSrcPairs]
  | cons r rs =>
    have hne : (r :: rs).isEmpty = false := rfl
    simp only [compute_source_quality_scores, hne, Bool.false_eq_true, if_false]
    rw [stats_fold_eq, pairsFold_apply]
    simp only [Option.isSome_none, Bool.false_eq_true, or_false, Option.getD_none,
      zero_addCounts]
    by_cases hmem : src ∈ (labeledSrcPairs (r :: rs)).map Prod.snd
    · rw [if_pos hmem, if_pos hmem, Option.map_some']
      simp [countsIn]
    · rw [if_neg hmem, if_neg hmem, Option.map_none']

/-- Inserting into the sorted remainder is a permutation of consing. -/
theorem insertDesc_perm (x : ℚ × Document) (l : List (ℚ × Document)) :
    (insertDesc x l).Perm (x :: l) := by
  induction l with
  | nil => exact List.Perm.refl _
  | cons y ys ih =>
    simp only [insertDesc]
    by_cases h : x.1 < y.1
    · rw [if_pos h]
      exact (ih.cons y).trans (List.Perm.swap x y ys)
    · rw [if_neg h]

/-- The stable descending sort permutes its input. -/
theorem sortDesc_perm (l : List (ℚ × Document)) : (sortDesc l).Perm l := by
  induction l with
  | nil => exact List.Perm.refl _
  | cons x xs ih => exact (insertDesc_perm x (sortDesc xs)).trans (ih.cons x)

/-- Insertion preserves the descending order of keys. -/
theorem insertDesc_pairwise (x : ℚ × Document) (l : List (ℚ × Document))
    (h : l.Pairwise (fun a b => b.1 ≤ a.1)) :
    (insertDesc x l).Pairwise (fun a b => b.1 ≤ a.1) := by
  induction l with
  | nil => simp [insertDesc]
  | cons y ys ih =>
    rw [List.pairwise_cons] at h
    obtain ⟨hy, hys⟩ := h
    simp only [insertDesc]
    by_cases hxy : x.1 < y.1
    · rw [if_pos hxy, List.pairwise_cons]
      constructor
      · intro z hz
        have hz' : z ∈ x :: ys := (insertDesc_perm x ys).mem_iff.mp hz
        rcases List.mem_cons.mp hz' with rfl | hzys
        · exact le_of_lt hxy
        · exact hy z hzys
      · exact ih hys
    · rw [if_neg hxy]
      push_neg at hxy
      rw [List.pairwise_cons]
      constructor
      · intro z hz
        rcases List.mem_cons.mp hz with rfl | hzys
        · exact hxy
        · exact le_trans (hy z hzys) hxy
      · exact List.pairwise_cons.mpr ⟨hy, hys⟩

/-- The stable descending sort is sorted descending by key. -/
theorem sortDesc_pairwise (l : List (ℚ × Document)) :
    (sortDesc l).Pairwise (fun a b => b.1 ≤ a.1) := by
  induction l with
  | nil => simp [sortDesc]
  | cons x xs ih => exact insertDesc_pairwise x (sortDesc xs) ih

/-- Stability of insertion, expressed through filtering by one key value: the
new element passes only strictly greater keys, so within one key value it
lands at the end. -/
theorem filter_insertDesc (x : ℚ × Document) (l : List (ℚ × Document)) (c : ℚ) :
    (insertDesc x l).filter (fun p => p.1 = c) =
      if x.1 = c then x :: l.filter (fun p => p.1 = c)
      else l.filter (fun p => p.1 = c) := by
  induction l with
  | nil =>
    simp only [insertDesc, List.filter]
    by_cases hxc : x.1 = c
    · simp [hxc]
    · simp [hxc]
  | cons y ys ih =>
    simp only [insertDesc]
    by_cases hxy : x.1 < y.1
    · rw [if_pos hxy, List.filter_cons]
      by_cases hyc : y.1 = c
      · have hxc : ¬ x.1 = c := by
          intro h
          rw [h, hyc] at hxy
          exact absurd hxy (lt_irrefl c)
        simp [hyc, hxc, ih, List.filter_cons]
      · simp [hyc, ih, List.filter_cons]
    · rw [if_neg hxy]
      by_cases hxc : x.1 = c
      · simp [hxc, List.filter_cons]
      · simp [hxc, List.filter_cons]

/-- Stability of the whole sort: for every key value, the subsequence of
elements carrying that key is unchanged. -/
theorem filter_sortDesc (l : List (ℚ × Document)) (c : ℚ) :
    (sortDesc l).filter (fun p => p.1 = c) = l.filter (fun p => p.1 = c) := by
  induction l with
  | nil => rfl
  | cons x xs ih =>
    show (insertDesc x (sortDesc xs)).filter _ = _
    rw [filter_insertDesc]
    by_cases hxc : x.1 = c
    · rw [if_pos hxc, ih, List.filter_cons, if_pos (by simp [hxc])]
    · rw [if_neg hxc, ih, List.filter_cons, if_neg (by simp [hxc])]

/-- C6: the re-ranker returns a permutation of the retrieved documents (so it
never alters distances, texts or any other field), ordered descending by
`combined = sourceScores.get(source, 0) − distance`, and stably: for every
combined value, documents with that value keep their original relative order.
Determinism is inherent: `rerankDocs` is a pure function of its two
arguments, and the three properties below determine its output uniquely. -/
theorem rerank_spec (source_scores : String → Option ℚ) (docs : List Document) :
    (rerankDocs source_scores docs).Perm docs ∧
    (rerankDocs source_scores docs).Pairwise
      (fun a b => combinedScore source_scores b ≤ combinedScore source_scores a) ∧
    (∀ c : ℚ,
      (rerankDocs source_scores docs).filter
        (fun d => combinedScore source_scores d = c) =
      docs.filter (fun d => combinedScore source_scores d = c)) := by
  have hsnd : (scoredDocs source_scores docs).map Prod.snd = docs := by
    induction docs with
    | nil => rfl
    | cons d l ih => simpa [scoredDocs] using ih
  have hkey : ∀ p ∈ scoredDocs source_scores docs,
      p.1 = combinedScore source_scores p.2 := by
    intro p hp
    obtain ⟨d, hd, rfl⟩ := List.mem_map.mp hp
    rfl
  have hkey2 : ∀ p ∈ sortDesc (scoredDocs source_scores docs),
      p.1 = combinedScore source_scores p.2 :=
    fun p hp => hkey p ((sortDesc_perm _).mem_iff.mp hp)
  refine ⟨?_, ?_, ?_⟩
  · unfold rerankDocs
    have h := (sortDesc_perm (scoredDocs source_scores docs)).map Prod.snd
    rwa [hsnd] at h
  · have hpw2 : (sortDesc (scoredDocs source_scores docs)).Pairwise
        (fun a b => combinedScore source_scores b.2 ≤ combinedScore source_scores a.2) :=
      (sortDesc_pairwise (scoredDocs source_scores docs)).imp_of_mem
        (fun ha hb hR => by rw [← hkey2 _ ha, ← hkey2 _ hb]; exact hR)
    unfold rerankDocs
    exact List.pairwise_map.mpr hpw2
  · intro c
    unfold rerankDocs
    rw [List.filter_map]
    have h1 : (sortDesc (scoredDocs source_scores docs)).filter
        ((fun d => decide (combinedScore source_scores d = c)) ∘ Prod.snd) =
        (sortDesc (scoredDocs source_scores docs)).filter (fun p => decide (p.1 = c)) :=
      List.filter_congr (fun p hp => by simp [Function.comp, hkey2 p hp])
    have h2 : (scoredDocs source_scores docs).filter (fun p => decide (p.1 = c)) =
        (scoredDocs source_scores docs).filter
          ((fun d => decide (combinedScore source_scores d = c)) ∘ Prod.snd) :=
      List.filter_congr (fun p hp => by simp [Function.comp, hkey p hp])
    rw [h1, filter_sortDesc, h2, ← List.filter_map, hsnd]

/-- With enough fuel, the core digit loop of `Nat.repr` computes `natChars`. -/
theorem toDigitsCore_eq (fuel n : Nat) (ds : List Char) (h : n < fuel) :
    Nat.toDigitsCore 10 fuel n ds = natChars n ++ ds := by
  induction fuel generalizing n ds with
  | zero => omega
  | succ f ih =>
    rw [Nat.toDigitsCore]
    by_cases h0 : n / 10 = 0
    · rw [if_pos h0, natChars, if_pos (by omega)]
      rw [Nat.mod_eq_of_lt (by omega)]
      simp
    · rw [if_neg h0, ih (n / 10) _ (by omega)]
      have hn : natChars n = natChars (n / 10) ++ [Nat.digitChar (n % 10)] := by
        rw [natChars]
        rw [if_neg (by omega)]
      rw [hn]
      simp

/-- The characters of `Nat.repr n` are `natChars n`. -/
theorem repr_data (n : Nat) : (Nat.repr n).data = natChars n := by
  show (Nat.toDigits 10 n).asString.data = natChars n
  unfold Nat.toDigits
  rw [toDigitsCore_eq (n + 1) n [] (by omega)]
  simp [List.asString]

/-- Digit characters are digits. -/
theorem digitChar_isDigit (m : Nat) (h : m < 10) : (Nat.digitChar m).isDigit = true := by
  interval_cases m <;> decide

/-- All characters of a decimal rendering are digits. -/
theorem natChars_digits (n : Nat) : ∀ c ∈ natChars n, c.isDigit = true := by
  induction n using Nat.strong_induction_on with
  | _ n ih =>
    by_cases h : n < 10
    · rw [natChars, if_pos h]
      intro c hc
      simp only [List.mem_singleton] at hc
      subst hc
      exact digitChar_isDigit n h
    · rw [natChars, if_neg h]
      intro c hc
      rcases List.mem_append.mp hc with h1 | h2
      · exact ih (n / 10) (Nat.div_lt_self (by omega) (by norm_num)) c h1
      · simp only [List.mem_singleton] at h2
        subst h2
        exact digitChar_isDigit _ (Nat.mod_lt _ (by norm_num))

/-- `digitVal` inverts `Nat.digitChar` on digits. -/
theorem digitChar_val (m : Nat) (h : m < 10) : digitVal (Nat.digitChar m) = m := by
  interval_cases m <;> decide

/-- The decimal rendering evaluates back to the number. -/
theorem digitsVal_natChars (n : Nat) : digitsVal (natChars n) = n := by
  induction n using Nat.strong_induction_on with
  | _ n ih =>
    by_cases h : n < 10
    · rw [natChars, if_pos h]
      simp [digitsVal, digitChar_val n h]
    · rw [natChars, if_neg h]
      unfold digitsVal
      rw [List.foldl_append, List.foldl_cons, List.foldl_nil]
      have ih2 := ih (n / 10) (Nat.div_lt_self (by omega) (by norm_num))
      unfold digitsVal at ih2
      rw [ih2, digitChar_val _ (Nat.mod_lt _ (by norm_num))]
      omega

/-- The decimal rendering is injective. -/
theorem natChars_inj {m n : Nat} (h : natChars m = natChars n) : m = n := by
  have hm := digitsVal_natChars m
  rw [h, digitsVal_natChars] at hm
  exact hm.symm

/-- `takeWhile` of a list of satisfying elements followed by a failing one. -/
theorem takeWhile_append_stop (p : Char → Bool) (A B : List Char) (b : Char)
    (hA : ∀ c ∈ A, p c = true) (hb : p b = false) :
    (A ++ b :: B).takeWhile p = A := by
  induction A with
  | nil => simp [List.takeWhile_cons, hb]
  | cons a A ih =>
    rw [List.cons_append, List.takeWhile_cons, if_pos (hA a (List.mem_cons_self a A))]
    rw [ih (fun c hc => hA c (List.mem_cons_of_mem a hc))]

/-- The chunk counter is recoverable from the rendered identifier
`source ++ "::" ++ repr counter` (it is the maximal trailing digit run), so
equal identifiers have equal counters whatever the source names are. -/
theorem id_inj (s1 s2 : String) (n1 n2 : Nat)
    (h : s1 ++ "::" ++ Nat.repr n1 = s2 ++ "::" ++ Nat.repr n2) : n1 = n2 := by
  have hd := congrArg String.data h
  rw [String.data_append, String.data_append, String.data_append, String.data_append,
    repr_data, repr_data, show ("::" : String).data = [':', ':'] from rfl] at hd
  have key : ∀ (s : List Char) (n : Nat),
      ((s ++ [':', ':']) ++ natChars n).reverse.takeWhile Char.isDigit =
        (natChars n).reverse := by
    intro s n
    rw [List.reverse_append, List.reverse_append]
    exact takeWhile_append_stop Char.isDigit ((natChars n).reverse) (':' :: s.reverse) ':'
      (fun c hc => natChars_digits n c (List.mem_reverse.mp hc)) (by decide)
  have h1 := congrArg (fun l : List Char => l.reverse.takeWhile Char.isDigit) hd
  simp only [key] at h1
  exact natChars_inj (List.reverse_injective h1)

/-- The chunk numbers produced by the file loop starting at counter `ctr` are
exactly the consecutive integers starting at `ctr`. -/
theorem build_index_aux_chunks (files : List (String × String)) (ctr : Nat) :
    (build_index_aux files ctr).map (fun e => e.chunk) =
      List.range' ctr (build_index_aux files ctr).length := by
  induction files generalizing ctr with
  | nil => rfl
  | cons f rest ih =>
    simp only [build_index_aux, List.map_append, List.map_map, List.length_append,
      List.length_map]
    rw [ih]
    have h1 : (ragChunk f.2).enum.map
        ((fun e : IndexEntry => e.chunk) ∘ (fun p : Nat × String =>
          ({ text := p.2, id := f.1 ++ "::" ++ Nat.repr (ctr + p.1), source := f.1,
             chunk := ctr + p.1 } : IndexEntry))) =
        List.range' ctr (ragChunk f.2).length := by
      rw [show ((fun e : IndexEntry => e.chunk) ∘ (fun p : Nat × String =>
          ({ text := p.2, id := f.1 ++ "::" ++ Nat.repr (ctr + p.1), source := f.1,
             chunk := ctr + p.1 } : IndexEntry))) =
          ((fun i => ctr + i) ∘ Prod.fst) from rfl]
      rw [← List.map_map, List.enum_map_fst, ← List.range'_eq_map_range]
    rw [h1, List.enum_length]
    have h2 := List.range'_append ctr (ragChunk f.2).length
      (build_index_aux rest (ctr + (ragChunk f.2).length)).length 1
    rw [Nat.one_mul] at h2
    rw [h2, Nat.add_comm ((build_index_aux rest (ctr + (ragChunk f.2).length)).length)
      ((ragChunk f.2).length)]

/-- Every entry's string id is its source and chunk counter rendered as
`source::counter`. -/
theorem build_index_aux_id_format (files : List (String × String)) (ctr : Nat) :
    ∀ e ∈ build_index_aux files ctr, e.id = e.source ++ "::" ++ Nat.repr e.chunk := by
  induction files generalizing ctr with
  | nil =>
    intro e he
    exact absurd he (List.not_mem_nil e)
  | cons f rest ih =>
    intro e he
    simp only [build_index_aux, List.mem_append] at he
    rcases he with h1 | h2
    · obtain ⟨p, hp, rfl⟩ := List.mem_map.mp h1
      rfl
    · exact ih _ e h2

/-- C4: the index build numbers chunks with one global counter across all
files — the chunk numbers are exactly `0, 1, …, N−1` in order (hence unique
and strictly increasing corpus-wide), the string identifiers
`source::counter` are pairwise distinct, and a rebuild is a pure function of
the source files: it is independent of whatever the collection held before,
so rebuilding twice with unchanged files gives identical chunks. -/
theorem build_index_spec (files : List (String × String)) :
    ((build_index files).map (fun e => e.chunk) = List.range (build_index files).length) ∧
    ((build_index files).map (fun e => e.chunk)).Pairwise (fun a b => a < b) ∧
    (∀ e ∈ build_index files, e.id = e.source ++ "::" ++ Nat.repr e.chunk) ∧
    ((build_index files).map (fun e => e.id)).Nodup ∧
    (∀ prev prev2 : List IndexEntry,
      rebuild_index prev files = rebuild_index prev2 files) := by
  have hchunks : (build_index files).map (fun e => e.chunk) =
      List.range (build_index files).length := by
    rw [build_index, build_index_aux_chunks, List.range_eq_range']
  refine ⟨hchunks, by rw [hchunks]; exact List.pairwise_lt_range _,
    build_index_aux_id_format files 0, ?_, fun p1 p2 => rfl⟩
  have hnd : ((build_index files).map (fun e => e.chunk)).Nodup := by
    rw [hchunks]
    exact List.nodup_range _
  have hnd2 : (build_index files).Pairwise (fun a b => a.chunk ≠ b.chunk) :=
    List.pairwise_map.mp hnd
  refine List.pairwise_map.mpr (hnd2.imp_of_mem ?_)
  intro a b ha hb hne hid
  apply hne
  have hfa := build_index_aux_id_format files 0 a ha
  have hfb := build_index_aux_id_format files 0 b hb
  rw [hfa, hfb] at hid
  exact id_inj _ _ _ _ hid

/-- An element failing the predicate survives `dropWhile`. -/
theorem mem_dropWhile_of_neg {p : Char → Bool} {c : Char} (l : List Char)
    (hc : c ∈ l) (h : p c = false) : c ∈ l.dropWhile p := by
  induction l with
  | nil => cases hc
  | cons a l ih =>
    rw [List.dropWhile_cons]
    by_cases ha : p a = true
    · rw [if_pos ha]
      rcases List.mem_cons.mp hc with rfl | hcl
      · rw [h] at ha
        cases ha
      · exact ih hcl
    · rw [if_neg ha]
      exact hc

/-- A non-whitespace character of `t` survives `pyStrip`. -/
theorem mem_pyStrip (t : String) (c : Char) (hc : c ∈ t.data)
    (hw : c.isWhitespace = false) : c ∈ (pyStrip t).data := by
  show c ∈ ((t.data.dropWhile Char.isWhitespace).reverse.dropWhile Char.isWhitespace).reverse
  exact List.mem_reverse.mpr
    (mem_dropWhile_of_neg _ (List.mem_reverse.mpr (mem_dropWhile_of_neg _ hc hw)) hw)

/-- A string containing a non-whitespace character does not strip to empty. -/
theorem pyStrip_ne_empty (s : String) (c : Char) (hc : c ∈ s.data)
    (hw : c.isWhitespace = false) : pyStrip s ≠ "" := by
  intro he
  have hm := mem_pyStrip s c hc hw
  rw [he] at hm
  cases hm

/-- Every character of every joined part occurs in the join. -/
theorem mem_pyJoin (sep : String) (parts : List String) (t : String) (ht : t ∈ parts)
    (c : Char) (hc : c ∈ t.data) : c ∈ (pyJoin sep parts).data := by
  cases parts with
  | nil => cases ht
  | cons x xs =>
    have key : ∀ (ys : List String) (acc : String),
        (c ∈ acc.data ∨ ∃ u ∈ ys, c ∈ u.data) →
        c ∈ (ys.foldl (fun a y => a ++ sep ++ y) acc).data := by
      intro ys
      induction ys with
      | nil =>
        intro acc hacc
        rcases hacc with hcc | ⟨u, hu, -⟩
        · exact hcc
        · cases hu
      | cons y ys ih =>
        intro acc hacc
        rw [List.foldl_cons]
        apply ih
        rcases hacc with hcc | ⟨u, hu, hcu⟩
        · left
          rw [String.data_append, String.data_append]
          exact List.mem_append.mpr (Or.inl (List.mem_append.mpr (Or.inl hcc)))
        · rcases List.mem_cons.mp hu with rfl | hu2
          · left
            rw [String.data_append]
            exact List.mem_append.mpr (Or.inr hcu)
          · right
            exact ⟨u, hu2, hcu⟩
    show c ∈ (xs.foldl (fun a y => a ++ sep ++ y) x).data
    apply key
    rcases List.mem_cons.mp ht with rfl | ht2
    · left
      exact hc
    · right
      exact ⟨t, ht2, hc⟩

/-- Appending on the right cannot erase a non-empty string. -/
theorem append_ne_empty_left (a b : String) (ha : a ≠ "") : a ++ b ≠ "" := by
  intro h
  apply ha
  have hd := congrArg String.data h
  rw [String.data_append] at hd
  have h0 : a.data = [] := (List.append_eq_nil.mp hd).1
  exact String.ext h0

/-- The offline template always yields a non-empty string. -/
theorem baseline_answer_ne_empty (query : String) (docs : List Document) :
    baseline_answer query docs ≠ "" := by
  simp only [baseline_answer]
  apply append_ne_empty_left
  apply append_ne_empty_left
  apply append_ne_empty_left
  apply append_ne_empty_left
  apply append_ne_empty_left
  apply append_ne_empty_left
  apply append_ne_empty_left
  apply append_ne_empty_left
  decide

/-- A successful LLM-tier answer is non-empty provided the chunk list is
non-empty (the appended `Sources:` block guarantees content) or the response
contains at least one text part with a non-whitespace character. -/
theorem generate_with_openai_nonempty (cfg : PipelineCfg)
    (resp : String → Option (List String)) (docs : List Document) (m a : String)
    (hsome : generate_with_openai cfg resp docs m = some a)
    (h : docs ≠ [] ∨ ∀ mm items, resp mm = some items →
      ∃ t ∈ items, ∃ c ∈ t.data, c.isWhitespace = false) :
    a ≠ "" := by
  unfold generate_with_openai at hsome
  cases hcli : cfg.has_client with
  | false =>
    rw [hcli] at hsome
    simp at hsome
  | true =>
    rw [hcli] at hsome
    simp only [Bool.not_true, Bool.false_eq_true, if_false] at hsome
    cases hresp : resp m with
    | none =>
      rw [hresp] at hsome
      cases hsome
    | some items =>
      rw [hresp] at hsome
      by_cases hemp : (items.filter (fun t => t ≠ "")).isEmpty
      · simp only [hemp, if_true] at hsome
        cases hsome
      · simp only [hemp, Bool.false_eq_true, if_false] at hsome
        have heq : a = pyStrip
            (if (build_context_and_sources docs).2 ≠ "" then
              pyJoin "\n" (((items.filter (fun t => t ≠ "")).map pyStrip).filter
                  (fun t => t ≠ "")) ++ "\n\nSources:\n" ++ (build_context_and_sources docs).2
             else
              pyJoin "\n" (((items.filter (fun t => t ≠ "")).map pyStrip).filter
                  (fun t => t ≠ ""))) := (Option.some.inj hsome).symm
        rcases h with hdocs | hitems
        · -- the sources block is non-empty, so the answer contains a bracket
          cases hd : docs with
          | nil => exact absurd hd hdocs
          | cons d ds =>
            have hmapne : (docs.enum.map (fun p => sourcesLine (p.1 + 1) p.2)) ≠ [] := by
              rw [hd]
              simp [List.enum_cons]
            obtain ⟨x, hx⟩ := List.exists_mem_of_ne_nil _ hmapne
            have hxbr : ('[' : Char) ∈ x.data := by
              obtain ⟨p, hp, rfl⟩ := List.mem_map.mp hx
              simp [sourcesLine, String.data_append]
            have hproj : (build_context_and_sources docs).2 =
                pyJoin "\n" (docs.enum.map (fun p => sourcesLine (p.1 + 1) p.2)) := by
              simp only [build_context_and_sources]
            have hsbmem : ('[' : Char) ∈ ((build_context_and_sources docs).2).data := by
              rw [hproj]
              exact mem_pyJoin _ _ x hx _ hxbr
            have hsb : (build_context_and_sources docs).2 ≠ "" := by
              intro he
              rw [he] at hsbmem
              cases hsbmem
            rw [if_pos hsb] at heq
            rw [heq]
            apply pyStrip_ne_empty _ '['
            · rw [String.data_append]
              exact List.mem_append.mpr (Or.inr hsbmem)
            · decide
        · -- some text part has a non-whitespace character
          obtain ⟨t, ht, c, hct, hcw⟩ := hitems m items hresp
          have htne : t ≠ "" := by
            intro he
            rw [he] at hct
            cases hct
          have ht2 : t ∈ items.filter (fun t => t ≠ "") :=
            List.mem_filter.mpr ⟨ht, by simpa using htne⟩
          have hst : c ∈ (pyStrip t).data := mem_pyStrip t c hct hcw
          have hstne : pyStrip t ≠ "" := pyStrip_ne_empty t c hct hcw
          have ht3 : pyStrip t ∈ ((items.filter (fun t => t ≠ "")).map pyStrip).filter
              (fun t => t ≠ "") :=
            List.mem_filter.mpr ⟨List.mem_map_of_mem pyStrip ht2, by simpa using hstne⟩
          have hjoin : c ∈ (pyJoin "\n"
              (((items.filter (fun t => t ≠ "")).map pyStrip).filter
                (fun t => t ≠ ""))).data :=
            mem_pyJoin _ _ _ ht3 c hst
          rw [heq]
          by_cases hsb : (build_context_and_sources docs).2 ≠ ""
          · rw [if_pos hsb]
            apply pyStrip_ne_empty _ c _ hcw
            rw [String.data_append, String.data_append]
            exact List.mem_append.mpr (Or.inl (List.mem_append.mpr (Or.inl hjoin)))
          · rw [if_neg hsb]
            exact pyStrip_ne_empty _ c hjoin hcw

/-- If the two LLM tiers produced an answer, it came from the primary or the
base model. -/
theorem generate_answer_opt_eq_some (cfg : PipelineCfg)
    (resp : String → Option (List String)) (docs : List Document) (pm a : String)
    (h : generate_answer_opt cfg resp docs pm = some a) :
    generate_with_openai cfg resp docs pm = some a ∨
    generate_with_openai cfg resp docs cfg.base_model = some a := by
  unfold generate_answer_opt at h
  cases h1 : (if tryPrimaryCond cfg pm then generate_with_openai cfg resp docs pm
      else none) with
  | some b =>
    rw [h1] at h
    simp only [] at h
    left
    have hgw : generate_with_openai cfg resp docs pm = some b := by
      by_cases hc : tryPrimaryCond cfg pm = true
      · rwa [if_pos hc] at h1
      · rw [if_neg hc] at h1
        cases h1
    rw [hgw, h]
  | none =>
    rw [h1] at h
    simp only [] at h
    right
    by_cases hc : tryBaseCond cfg pm = true
    · rwa [if_pos hc] at h
    · rw [if_neg hc] at h
      cases h

/-- Soundness of the ghost observer: when `actual_model_used` names no model
the generator returned the offline template, and when it names `m` the
generator returned exactly the successful answer of model `m`. -/
theorem actual_model_used_sound (cfg : PipelineCfg)
    (resp : String → Option (List String)) (query : String) (docs : List Document)
    (uf : Option Bool) (fm : Option String) :
    (actual_model_used cfg resp docs uf fm = none →
      generate cfg resp query docs uf fm = baseline_answer query docs) ∧
    (∀ m, actual_model_used cfg resp docs uf fm = some m →
      ∃ a, generate_with_openai cfg resp docs m = some a ∧
        generate cfg resp query docs uf fm = a) := by
  unfold actual_model_used generate generate_answer_opt
  cases h1 : (if tryPrimaryCond cfg (primaryModel cfg uf fm) then
      generate_with_openai cfg resp docs (primaryModel cfg uf fm) else none) with
  | some b =>
    constructor
    · intro hn
      simp only [] at hn
      cases hn
    · intro m hm
      simp only [] at hm ⊢
      have hgw : generate_with_openai cfg resp docs (primaryModel cfg uf fm) = some b := by
        by_cases hc : tryPrimaryCond cfg (primaryModel cfg uf fm) = true
        · rwa [if_pos hc] at h1
        · rw [if_neg hc] at h1
          cases h1
      refine ⟨b, ?_, rfl⟩
      rw [← Option.some.inj hm]
      exact hgw
  | none =>
    simp only []
    by_cases hc2 : tryBaseCond cfg (primaryModel cfg uf fm) = true
    · rw [if_pos hc2, if_pos hc2]
      cases h2 : generate_with_openai cfg resp docs cfg.base_model with
      | some c =>
        constructor
        · intro hn
          cases hn
        · intro m hm
          simp only [] at hm
          refine ⟨c, ?_, rfl⟩
          rw [← Option.some.inj hm]
          exact h2
      | none =>
        constructor
        · intro _
          rfl
        · intro m hm
          cases hm
    · rw [if_neg hc2, if_neg hc2]
      constructor
      · intro _
        rfl
      · intro m hm
        cases hm

/-- C3 counterexample: with a live client, no configured fine-tuned model and
a transport whose response consists of one whitespace-only text part, the
generator returns the empty string on an empty chunk list — the whitespace
part passes the `if text:` truthiness check, strips to nothing, and the
resulting empty string is not `None`, so the baseline template is skipped. -/
theorem generate_empty_counterexample :
    generate cfgWs respWs "q" [] (some false) none = "" := by decide

/-- C3 (amended): the generator is a total function (no exception reaches the
caller; every tier failure selects the next tier, ending in the offline
template, which always succeeds) and its result is non-empty whenever the
chunk list is non-empty or every successful transport response contains a
text part with a non-whitespace character.  Without that proviso the result
can be empty (see the counterexample). -/
theorem generate_nonempty (cfg : PipelineCfg) (resp : String → Option (List String))
    (query : String) (docs : List Document) (uf : Option Bool) (fm : Option String)
    (h : docs ≠ [] ∨ ∀ mm items, resp mm = some items →
      ∃ t ∈ items, ∃ c ∈ t.data, c.isWhitespace = false) :
    generate cfg resp query docs uf fm ≠ "" := by
  cases hg : generate_answer_opt cfg resp docs (primaryModel cfg uf fm) with
  | none =>
    unfold generate
    rw [hg]
    exact baseline_answer_ne_empty query docs
  | some a =>
    have h2 := generate_answer_opt_eq_some cfg resp docs _ a hg
    unfold generate
    rw [hg]
    rcases h2 with h3 | h3
    · exact generate_with_openai_nonempty cfg resp docs _ a h3 h
    · exact generate_with_openai_nonempty cfg resp docs _ a h3 h

/-- C3 witness: the amended theorem evaluated on a one-document retrieval with
the fine-tuned tier failing and the base tier succeeding. -/
theorem generate_nonempty_witness :
    (([sampleDoc1] : List Document) ≠ [] ∨ ∀ mm items, respC1 mm = some items →
      ∃ t ∈ items, ∃ c ∈ t.data, c.isWhitespace = false) ∧
    generate cfgC1 respC1 "q" [sampleDoc1] (some true) none ≠ "" :=
  ⟨Or.inl (by decide),
   generate_nonempty cfgC1 respC1 "q" [sampleDoc1] (some true) none (Or.inl (by decide))⟩

/-- C1: at the failing input — fine-tuned model configured and requested, its
call fails, the base model answers — the answer is produced by the base model
(the ghost observer reports `base-model` and the response answer is the base
model's text), yet `model_name_for_run`, the query response `model` field and
the logged record all say `ft-model`.  The recorded model is a function of
the toggle and configuration only, not of the tier that actually answered. -/
theorem model_field_mismatch :
    actual_model_used cfgC1 respC1 [] (some true) none = some "base-model" ∧
    generate cfgC1 respC1 "q" [] (some true) none = "BASE ANSWER" ∧
    generate_with_openai cfgC1 respC1 [] "ft-model" = none ∧
    model_name_for_run cfgC1 true = "ft-model" ∧
    (query_rag cfgC1 respC1 payloadC1 [] 5 "run-1" "ts-1" []).1.model = some "ft-model" ∧
    ((query_rag cfgC1 respC1 payloadC1 [] 5 "run-1" "ts-1" []).2.map (fun r => r.model)) =
      [some "ft-model"] ∧
    ("ft-model" : String) ≠ "base-model" := by
  refine ⟨?_, ?_, ?_, ?_, ?_, ?_, ?_⟩ <;> decide

/-- The `model` field of a non-short-circuited query response is always
`model_name_for_run` of the toggle — it does not depend on the transport
outcome at all. -/
theorem query_rag_model_field (cfg : PipelineCfg) (resp : String → Option (List String))
    (payload : QueryRequest) (docs : List Document) (elapsed_ms : ℚ)
    (run_id timestamp : String) (log : List RunRecord)
    (h : pyStrip payload.query ≠ "") :
    (query_rag cfg resp payload docs elapsed_ms run_id timestamp log).1.model =
      some (model_name_for_run cfg payload.use_finetuned) := by
  simp [query_rag, h]
